import Mathlib

/-!
Verification of the job-portal backend's normalization, classification,
ingestion and query logic, shallowly embedded from the Python sources
(`scrapers/base.py`, `crud.py`, `scheduler.py`, `main.py`).

Text is modelled as `List Char` / `String`; machine integers as `Nat`/`Int`;
fallible actions as `Except`.  Decimal numeric literals from the salary
parser are kept exact as (integer digits, fractional digits) pairs, so the
comparison `float(n) > 100` and the truncation `int(float(n))` are modelled
without floating-point rounding (all inputs of interest are short).
-/

namespace JobPortal

/-! ### Character helpers (Python `str` / `re` semantics, ASCII fragment) -/

/-- Python regex `\s` on the inputs in scope (ASCII whitespace). -/
def isSpaceChar (c : Char) : Bool :=
  c = ' ' || c = '\t' || c = '\n' || c = '\r' || c = Char.ofNat 11 || c = Char.ofNat 12

/-- Python regex `\w` (word character), ASCII fragment. -/
def isWordChar (c : Char) : Bool :=
  ( 'a' ≤ c && c ≤ 'z') || ( 'A' ≤ c && c ≤ 'Z') || ( '0' ≤ c && c ≤ '9') || c = '_'

def isUpperAZ (c : Char) : Bool := 'A' ≤ c && c ≤ 'Z'

def isDigitChar (c : Char) : Bool := '0' ≤ c && c ≤ '9'

/-- Whether `pat` is a leading segment of `l`. -/
def startsWith : List Char → List Char → Bool
  | [], _ => true
  | _ :: _, [] => false
  | p :: ps, t :: ts => p == t && startsWith ps ts

/-- Substring containment (Python `in` on `str`). -/
def containsSub (pat : List Char) : List Char → Bool
  | [] => pat.isEmpty
  | c :: ts => startsWith pat (c :: ts) || containsSub pat ts

/-- Lowercase a string the way Python `.lower()` does on ASCII input. -/
def lowerL (l : List Char) : List Char := l.map Char.toLower

/-! ### Salary parsing (`BaseScraper.parse_salary`, base.py lines 141-157)

`re.findall(r'[\d,]+\.?\d*', salary_str.replace(",", ""))`: after the comma
removal the character class `[\d,]` can only match digits, so each token is a
maximal digit run, optionally followed by one `.` and a further digit run.
`scanNums` is that left-to-right scan; the state is `none` (outside a token),
`some (ds, none)` (inside the integer part) or `some (ds, some fs)` (inside
the fractional part).  The character that ends a token is never a digit, so
it cannot start the next token and is consumed together with the emit,
exactly as `findall` resumes scanning after a match. -/

def scanNums : List Char → Option (List Char × Option (List Char)) →
    List (List Char × List Char)
  | [], none => []
  | [], some (ds, none) => [(ds, [])]
  | [], some (ds, some fs) => [(ds, fs)]
  | c :: cs, none =>
      if isDigitChar c then scanNums cs (some ([c], none)) else scanNums cs none
  | c :: cs, some (ds, none) =>
      if isDigitChar c then scanNums cs (some (ds ++ [c], none))
      else if c = '.' then scanNums cs (some (ds, some []))
      else (ds, []) :: scanNums cs none
  | c :: cs, some (ds, some fs) =>
      if isDigitChar c then scanNums cs (some (ds, some (fs ++ [c])))
      else (ds, fs) :: scanNums cs none

def digitsToNat (l : List Char) : Nat :=
  l.foldl (fun a c => 10 * a + (c.toNat - '0'.toNat)) 0

/-- The numeric tokens of a salary string: commas stripped first
(`salary_str.replace(",", "")`), then the findall scan. -/
def salaryTokens (s : String) : List (List Char × List Char) :=
  scanNums (s.data.filter (fun c => c != ',')) none

/-- Python `float(n) > 100` for a token `(intDigits, fracDigits)`, exactly:
the value exceeds 100 iff the integer part exceeds 100, or equals 100 with a
nonzero fractional digit. -/
def tokGt100 (t : List Char × List Char) : Bool :=
  100 < digitsToNat t.1 || (digitsToNat t.1 == 100 && t.2.any (fun c => c != '0'))

/-- Python `int(float(n))` for a nonnegative decimal token: the integer part. -/
def tokInt (t : List Char × List Char) : Nat := digitsToNat t.1

/-- Truthiness of `re.search(r"(?i)(hour|hr|/hr|per hour)", salary_str)`:
case-insensitive substring search for any alternative, on the original
(uncleaned) string. -/
def hasHourly (s : String) : Bool :=
  let ls := lowerL s.data
  containsSub "hour".data ls || containsSub "hr".data ls ||
    containsSub "/hr".data ls || containsSub "per hour".data ls

/-- The final `len(numbers)` case split of `parse_salary`
(base.py 153-157): `(min, max)` for two or more, `(n, n)` for one,
`(None, None)` for zero. -/
def salaryPair : List Nat → Option Nat × Option Nat
  | [] => (none, none)
  | [n] => (some n, some n)
  | n :: rest => (some (rest.foldl Nat.min n), some (rest.foldl Nat.max n))

/-- Embedding of `BaseScraper.parse_salary` (base.py 141-157), transcribed line by line. -/
def parse_salary (s : String) : Option Nat × Option Nat :=
  if s.data.isEmpty then (none, none)
  else
    let nums := ((salaryTokens s).filter tokGt100).map tokInt
    let nums2 := if hasHourly s then nums.map (fun n => n * 2080) else nums
    salaryPair nums2

/-! Spec-side rendering of the salary algorithm, written from the
specification sentence: extract all numeric tokens (commas stripped,
decimals allowed), discard any token ≤ 100, multiply every retained number
by 2080 when the text has an hourly marker, and return `(min, max)` when at
least two numbers remain, `(n, n)` when exactly one remains, `(null, null)`
when none remain. -/

def listMinOpt : List Nat → Option Nat
  | [] => none
  | n :: rest => some (rest.foldl Nat.min n)

def listMaxOpt : List Nat → Option Nat
  | [] => none
  | n :: rest => some (rest.foldl Nat.max n)

def parseSalarySpec (s : String) : Option Nat × Option Nat :=
  let kept := ((salaryTokens s).filter tokGt100).map tokInt
  let final := if hasHourly s then kept.map (fun n => n * 2080) else kept
  if 2 ≤ final.length then (listMinOpt final, listMaxOpt final)
  else if final.length = 1 then (final.head?, final.head?)
  else (none, none)

theorem salaryPair_eq_cases (l : List Nat) :
    salaryPair l =
      if 2 ≤ l.length then (listMinOpt l, listMaxOpt l)
      else if l.length = 1 then (l.head?, l.head?)
      else (none, none) := by
  rcases l with _ | ⟨n, _ | ⟨m, r⟩⟩ <;> simp [salaryPair, listMinOpt, listMaxOpt]

theorem parse_salary_eq_spec (s : String) : parse_salary s = parseSalarySpec s := by
  unfold parse_salary parseSalarySpec
  by_cases h : s.data.isEmpty
  · rw [if_pos h]
    have hd : s.data = [] := List.isEmpty_iff.mp h
    have h1 : salaryTokens s = [] := by simp [salaryTokens, hd, scanNums]
    have h2 : hasHourly s = false := by
      simp only [hasHourly, lowerL, hd, List.map_nil]
      decide
    rw [h1, h2]
    decide
  · rw [if_neg h, salaryPair_eq_cases]

/-- Claim C1 as frozen is false at the concrete input `"$45/hour"`: the code
filters out every numeric token ≤ 100 *before* the hourly ×2080
multiplication, so 45 is discarded and the result is `(none, none)`,
not `(93600, 93600)`. -/
theorem c1_counterexample_hourly :
    parse_salary "$45/hour" ≠ (some 93600, some 93600) := by decide

/-- Claim C1 (amended): `parse_salary` follows the spec's algorithm for every
salary string — numeric tokens (commas stripped, decimals allowed), tokens
≤ 100 discarded, retained numbers ×2080 under an hourly marker, then
min/max by count — and on the examples `"$80,000 - $100,000"` gives
`(80000, 100000)`, `"Competitive"` gives `(none, none)`, while `"$45/hour"`
gives `(none, none)` because 45 is discarded before annualization. -/
theorem c1_parse_salary_amended :
    (∀ s : String, parse_salary s = parseSalarySpec s)
    ∧ parse_salary "$80,000 - $100,000" = (some 80000, some 100000)
    ∧ parse_salary "$45/hour" = (none, none)
    ∧ parse_salary "Competitive" = (none, none) :=
  ⟨parse_salary_eq_spec, by decide, by decide, by decide⟩

/-! ### US state normalization (`normalize_state` / `extract_city`,
base.py lines 53-70 and 112-139)

`US_STATES` is the dict literal in its source order.  `STATE_ABBREVS` is
built by inserting the lowercased full names first and then updating with
the lowercased abbreviations; since no lowercased full name equals a
two-letter abbreviation, its iteration order is exactly
"all full names, then all abbreviations", modelled by `stateScanKeys`. -/

def US_STATES : List (String × String) := [
  ("AL", "Alabama"), ("AK", "Alaska"), ("AZ", "Arizona"), ("AR", "Arkansas"),
  ("CA", "California"), ("CO", "Colorado"), ("CT", "Connecticut"), ("DE", "Delaware"),
  ("FL", "Florida"), ("GA", "Georgia"), ("HI", "Hawaii"), ("ID", "Idaho"),
  ("IL", "Illinois"), ("IN", "Indiana"), ("IA", "Iowa"), ("KS", "Kansas"),
  ("KY", "Kentucky"), ("LA", "Louisiana"), ("ME", "Maine"), ("MD", "Maryland"),
  ("MA", "Massachusetts"), ("MI", "Michigan"), ("MN", "Minnesota"), ("MS", "Mississippi"),
  ("MO", "Missouri"), ("MT", "Montana"), ("NE", "Nebraska"), ("NV", "Nevada"),
  ("NH", "New Hampshire"), ("NJ", "New Jersey"), ("NM", "New Mexico"), ("NY", "New York"),
  ("NC", "North Carolina"), ("ND", "North Dakota"), ("OH", "Ohio"), ("OK", "Oklahoma"),
  ("OR", "Oregon"), ("PA", "Pennsylvania"), ("RI", "Rhode Island"), ("SC", "South Carolina"),
  ("SD", "South Dakota"), ("TN", "Tennessee"), ("TX", "Texas"), ("UT", "Utah"),
  ("VT", "Vermont"), ("VA", "Virginia"), ("WA", "Washington"), ("WV", "West Virginia"),
  ("WI", "Wisconsin"), ("WY", "Wyoming"), ("DC", "District of Columbia")]

/-- Iteration order of `STATE_ABBREVS`: lowercased full names (each mapping
to the full name), then lowercased abbreviations (each mapping to the full
name). -/
def stateScanKeys : List (List Char × String) :=
  US_STATES.map (fun p => (lowerL p.2.data, p.2)) ++
    US_STATES.map (fun p => (lowerL p.1.data, p.2))

/-- Semantics of `re.search(r",\s*([A-Z]{2})\b", location)`: at a position after a
comma, skip the whitespace run, then require two uppercase letters followed
by a non-word character or the end of the string. -/
def abbrevAfterComma (rest : List Char) : Option (Char × Char) :=
  match rest.dropWhile isSpaceChar with
  | a :: b :: tail =>
      if isUpperAZ a && isUpperAZ b &&
          (match tail with | [] => true | t :: _ => !isWordChar t) then
        some (a, b)
      else none
  | _ => none

/-- Leftmost match of `,\s*([A-Z]{2})\b` (every match starts at a comma). -/
def findStateAbbrev : List Char → Option (Char × Char)
  | [] => none
  | c :: rest =>
      if c = ',' then
        match abbrevAfterComma rest with
        | some ab => some ab
        | none => findStateAbbrev rest
      else findStateAbbrev rest

/-- The case-insensitive substring fallback scan of `normalize_state`:
first `STATE_ABBREVS` key contained in the lowercased location wins. -/
def stateSubstringScan (location : String) : Option String :=
  (stateScanKeys.find? (fun p => containsSub p.1 (lowerL location.data))).map (fun p => p.2)

/-- Embedding of `BaseScraper.normalize_state` (base.py 112-127). -/
def normalize_state (location : String) : Option String :=
  if location.data.isEmpty then none
  else
    match findStateAbbrev location.data with
    | some (a, b) =>
        match US_STATES.find? (fun p => p.1 == String.mk [a, b]) with
        | some p => some p.2
        | none => stateSubstringScan location
    | none => stateSubstringScan location

/-- Python `str.strip()` on ASCII whitespace. -/
def stripWs (l : List Char) : List Char :=
  ((l.dropWhile isSpaceChar).reverse.dropWhile isSpaceChar).reverse

/-- Embedding of `BaseScraper.extract_city` (base.py 129-139): the text before the first
comma, stripped; rejected when it is a known state name/abbreviation or
`"united states"`. -/
def extract_city (location : String) : Option String :=
  if location.data.isEmpty then none
  else
    let city := stripWs (location.data.takeWhile (fun c => c != ','))
    let cityL := lowerL city
    if !(stateScanKeys.any (fun p => p.1 == cityL)) && cityL ≠ "united states".data then
      some (String.mk city)
    else none

/-- Claim C2 as frozen is false at the input `"Remote"`: `extract_city`
returns `"Remote"` (it is not a state key), and `normalize_state` returns
`"Missouri"` because the fallback substring scan finds the abbreviation
`"mo"` inside `"remote"`; neither is `none`. -/
theorem c2_counterexample_remote :
    ¬ (extract_city "Remote" = none ∧ normalize_state "Remote" = none) := by decide

/-- Claim C2 (amended): for `"San Francisco, CA"`, `extract_city` returns
`"San Francisco"` and `normalize_state` returns `"California"` (via the
trailing comma-plus-two-capitals abbreviation); for `"Remote"`,
`extract_city` returns `"Remote"` and `normalize_state` returns
`"Missouri"` (the fallback case-insensitive substring scan over full state
names and abbreviations matches `"mo"` inside `"remote"`). -/
theorem c2_location_extraction_amended :
    extract_city "San Francisco, CA" = some "San Francisco"
    ∧ normalize_state "San Francisco, CA" = some "California"
    ∧ extract_city "Remote" = some "Remote"
    ∧ normalize_state "Remote" = some "Missouri" := by
  refine ⟨by decide, by decide, by decide, by decide⟩

/-! ### Classification rules (base.py lines 15-51 and 88-110)

Every rule pattern has the shape `(?i)\b(alt1|alt2|...)\b`.  The mini regex
AST `RAtom` covers exactly the constructs those alternatives use: literal
characters, `.` (any character except newline, from `entry.level` and
`mid.level`) and `.?` (optional any, from `full.?stack`, `on.?site`,
`in.?office`).  Matching is case-insensitive (text characters lowercased,
patterns written lowercase); `\b` is the usual word-boundary test. -/

inductive RAtom where
  | lit : Char → RAtom
  | any : RAtom
  | anyOpt : RAtom
deriving DecidableEq

/-- Literal (case-insensitive) pattern text. -/
def w (s : String) : List RAtom := s.data.map RAtom.lit

/-- All ways an alternative can consume a prefix of `rest`; each outcome is
(last consumed character, remaining text).  `last` is threaded for the
trailing word-boundary test; `.?` branches into consuming zero or one
character. -/
def matchAtoms : List RAtom → Char → List Char → List (Char × List Char)
  | [], last, rest => [(last, rest)]
  | .lit p :: as, _, t :: ts => if t.toLower == p then matchAtoms as t ts else []
  | .lit _ :: _, _, [] => []
  | .any :: as, _, t :: ts => if t != '\n' then matchAtoms as t ts else []
  | .any :: _, _, [] => []
  | .anyOpt :: as, last, rest =>
      matchAtoms as last rest ++
        (match rest with
         | t :: ts => if t != '\n' then matchAtoms as t ts else []
         | [] => [])

def headIsWord : List Char → Bool
  | [] => false
  | c :: _ => isWordChar c

/-- Whether `\b(alt)\b` matches at the current position: leading boundary between
the previous character and the character here, then the alternative, then a
trailing boundary. -/
def altMatchesAt (alt : List RAtom) (prevW : Bool) (rest : List Char) : Bool :=
  (prevW != headIsWord rest) &&
    (matchAtoms alt (if prevW then 'x' else ' ') rest).any
      (fun pr => isWordChar pr.1 != headIsWord pr.2)

/-- Full `re.search` scan: try every start position left to right, any alternative. -/
def reSearchAux (alts : List (List RAtom)) : Bool → List Char → Bool
  | prevW, [] => alts.any (fun a => altMatchesAt a prevW [])
  | prevW, c :: cs =>
      alts.any (fun a => altMatchesAt a prevW (c :: cs)) ||
        reSearchAux alts (isWordChar c) cs

def reSearch (alts : List (List RAtom)) (text : List Char) : Bool :=
  reSearchAux alts false text

/-- The full-stack rule of `CATEGORY_RULES` (base.py line 25). -/
def fullStackPat : List (List RAtom) :=
  [w "full" ++ [RAtom.anyOpt] ++ w "stack", w "fullstack"]

/-- The generic software-engineering rule of `CATEGORY_RULES`
(base.py line 31). -/
def swePat : List (List RAtom) :=
  [w "software engineer", w "software developer", w "developer",
   w "programmer", w "swe"]

/-- Embedding of `CATEGORY_RULES` (base.py 16-35), in source order. -/
def CATEGORY_RULES : List (List (List RAtom) × String) := [
  ([w "machine learning", w "ml engineer", w "ai engineer", w "deep learning",
    w "nlp", w "computer vision"], "AI & Machine Learning"),
  ([w "data scien", w "data analy", w "analytics", w "business intelligence",
    w "bi developer"], "Data Science & Analytics"),
  ([w "data engineer", w "etl", w "data pipeline", w "data platform",
    w "dbt", w "airflow"], "Data Engineering"),
  ([w "devops", w "sre", w "site reliability", w "infrastructure",
    w "platform engineer", w "cicd", w "ci/cd"], "DevOps & Infrastructure"),
  ([w "cyber", w "security", w "infosec", w "soc analyst", w "penetration",
    w "vulnerability"], "Cybersecurity"),
  ([w "cloud", w "aws", w "azure", w "gcp", w "cloud engineer",
    w "cloud architect"], "Cloud Computing"),
  ([w "frontend", w "front-end", w "react", w "angular", w "vue",
    w "ui developer"], "Frontend Development"),
  ([w "backend", w "back-end", w "server-side", w "api developer"],
    "Backend Development"),
  (fullStackPat, "Full Stack Development"),
  ([w "mobile", w "ios", w "android", w "swift", w "kotlin", w "flutter",
    w "react native"], "Mobile Development"),
  ([w "qa", w "quality assurance", w "test engineer", w "sdet",
    w "automation test"], "Quality Assurance"),
  ([w "network", w "systems admin", w "it support", w "helpdesk",
    w "desktop support", w "it specialist"], "IT Operations & Support"),
  ([w "product manager", w "program manager", w "project manager",
    w "scrum master", w "agile"], "Product & Project Management"),
  ([w "ui/ux", w "ux design", w "ui design", w "user experience",
    w "user interface", w "product design"], "UI/UX Design"),
  (swePat, "Software Engineering"),
  ([w "database", w "sql", w "dba", w "database admin"],
    "Database Administration"),
  ([w "embedded", w "firmware", w "hardware", w "iot"], "Embedded & IoT"),
  ([w "blockchain", w "web3", w "crypto", w "solidity"], "Blockchain & Web3")]

/-- Embedding of `EXPERIENCE_RULES` (base.py 38-44), in source order. -/
def EXPERIENCE_RULES : List (List (List RAtom) × String) := [
  ([w "intern", w "internship", w "co-op"], "intern"),
  ([w "entry" ++ [RAtom.any] ++ w "level", w "junior", w "jr.",
    w "associate", w "new grad", w "graduate"], "entry"),
  ([w "mid" ++ [RAtom.any] ++ w "level", w "mid-senior", w "intermediate"],
    "mid"),
  ([w "senior", w "sr.", w "lead", w "staff", w "principal"], "senior"),
  ([w "director", w "vp", w "vice president", w "head of", w "chief",
    w "cto", w "cio"], "executive")]

/-- Embedding of `WORK_TYPE_RULES` (base.py 47-51), in source order. -/
def WORK_TYPE_RULES : List (List (List RAtom) × String) := [
  ([w "remote", w "work from home", w "wfh", w "anywhere", w "distributed"],
    "remote"),
  ([w "hybrid", w "flexible", w "partly remote"], "hybrid"),
  ([w "on" ++ [RAtom.anyOpt] ++ w "site", w "in" ++ [RAtom.anyOpt] ++ w "office",
    w "in-person"], "onsite")]

/-- First-match-wins evaluation of an ordered rule list, with a default. -/
def ruleFirstMatch (dflt : String) :
    List (List (List RAtom) × String) → List Char → String
  | [], _ => dflt
  | r :: rs, text => if reSearch r.1 text then r.2 else ruleFirstMatch dflt rs text

/-- Embedding of `BaseScraper.categorize` (base.py 88-94): rules over
`f"{title} {description}"`, default `"Other Tech"`. -/
def categorize (title description : String) : String :=
  ruleFirstMatch "Other Tech" CATEGORY_RULES (title.data ++ ' ' :: description.data)

/-- Embedding of `BaseScraper.detect_experience` (base.py 96-102), default `"mid"`. -/
def detect_experience (title description : String) : String :=
  ruleFirstMatch "mid" EXPERIENCE_RULES (title.data ++ ' ' :: description.data)

/-- Embedding of `BaseScraper.detect_work_type` (base.py 104-110): rules over
`f"{title} {description} {location}"`, default `"onsite"`. -/
def detect_work_type (title description location : String) : String :=
  ruleFirstMatch "onsite" WORK_TYPE_RULES
    (title.data ++ ' ' :: (description.data ++ ' ' :: location.data))

theorem ruleFirstMatch_mem (dflt : String)
    (rules : List (List (List RAtom) × String)) (text : List Char) :
    ruleFirstMatch dflt rules text ∈ rules.map Prod.snd ++ [dflt] := by
  induction rules with
  | nil => simp [ruleFirstMatch]
  | cons r rs ih =>
      by_cases h : reSearch r.1 text = true
      · simp [ruleFirstMatch, h]
      · simp only [ruleFirstMatch, if_neg h, List.map_cons, List.cons_append,
          List.mem_cons]
        exact Or.inr ih

/-- The fixed category taxonomy: the 18 rule categories plus the default. -/
def categoryTaxonomy : List String :=
  ["AI & Machine Learning", "Data Science & Analytics", "Data Engineering",
   "DevOps & Infrastructure", "Cybersecurity", "Cloud Computing",
   "Frontend Development", "Backend Development", "Full Stack Development",
   "Mobile Development", "Quality Assurance", "IT Operations & Support",
   "Product & Project Management", "UI/UX Design", "Software Engineering",
   "Database Administration", "Embedded & IoT", "Blockchain & Web3",
   "Other Tech"]

/-- Claim C6: classification is total — for every title, description and
location (empty strings included), `categorize` returns a value of the fixed
category taxonomy (defaulting to `"Other Tech"`), `detect_experience` one of
intern/entry/mid/senior/executive (defaulting to `"mid"`), and
`detect_work_type` one of remote/hybrid/onsite (defaulting to `"onsite"`);
none of them ever returns null. -/
theorem c6_classification_total (title description location : String) :
    categorize title description ∈ categoryTaxonomy
    ∧ detect_experience title description ∈
        ["intern", "entry", "mid", "senior", "executive"]
    ∧ detect_work_type title description location ∈
        ["remote", "hybrid", "onsite"] := by
  refine ⟨?_, ?_, ?_⟩
  · have h := ruleFirstMatch_mem "Other Tech" CATEGORY_RULES
      (title.data ++ ' ' :: description.data)
    simpa [categorize, CATEGORY_RULES, categoryTaxonomy] using h
  · have h := ruleFirstMatch_mem "mid" EXPERIENCE_RULES
      (title.data ++ ' ' :: description.data)
    simp only [detect_experience]
    simp only [EXPERIENCE_RULES, List.map_cons, List.map_nil, List.cons_append,
      List.nil_append, List.mem_cons, List.not_mem_nil, or_false] at h ⊢
    tauto
  · have h := ruleFirstMatch_mem "onsite" WORK_TYPE_RULES
      (title.data ++ ' ' :: (description.data ++ ' ' :: location.data))
    simp only [detect_work_type]
    simp only [WORK_TYPE_RULES, List.map_cons, List.map_nil, List.cons_append,
      List.nil_append, List.mem_cons, List.not_mem_nil, or_false] at h ⊢
    tauto

/-- Claim C7: first-match-wins rule ordering — `"Senior Full Stack
Developer"` classifies as `"Full Stack Development"` (the full-stack rule
precedes the generic software-engineering rule, whose pattern also matches
this title) and its experience level is `"senior"`. -/
theorem c7_rule_ordering :
    categorize "Senior Full Stack Developer" "" = "Full Stack Development"
    ∧ detect_experience "Senior Full Stack Developer" "" = "senior"
    ∧ reSearch swePat ("Senior Full Stack Developer".data ++ ' ' :: "".data) = true
    ∧ reSearch fullStackPat ("Senior Full Stack Developer".data ++ ' ' :: "".data) = true := by
  refine ⟨by decide, by decide, by decide, by decide⟩

/-! ### Storage model (models.py `Job`, crud.py)

A stored row, with the columns the verified operations read or write.
Timestamps are epoch seconds (`Int`); nullable columns are `Option`; the
search vector is the list of lexemes of the derived searchable text. -/

structure Job where
  source : String
  externalId : String
  category : Option String := none
  locationState : Option String := none
  workType : Option String := none
  experienceLevel : Option String := none
  salaryMin : Option Int := none
  salaryMax : Option Int := none
  postedAt : Option Int := none
  isActive : Bool := true
  searchVec : List String := []
deriving DecidableEq

/-- Whether `(source, external_id)` is already present (the unique-index probe of
`ON CONFLICT (source, external_id) DO NOTHING`). -/
def hasKey (db : List Job) (src eid : String) : Bool :=
  db.any (fun j => j.source == src && j.externalId == eid)

/-- Embedding of `upsert_job` (crud.py 16-25): insert if the composite key is absent;
returns whether a row was inserted, plus the new table state. -/
def upsert_job (db : List Job) (jd : Job) : Bool × List Job :=
  if hasKey db jd.source jd.externalId then (false, db) else (true, db ++ [jd])

/-- The insertion loop of `upsert_jobs_bulk` (crud.py 36-39): count of
inserted rows and final state. -/
def upsertLoop (db : List Job) : List Job → Nat × List Job
  | [] => (0, db)
  | j :: rest =>
      let r := upsert_job db j
      let t := upsertLoop r.2 rest
      ((if r.1 then 1 else 0) + t.1, t.2)

/-- Embedding of `upsert_jobs_bulk` (crud.py 28-41): returns
`(inserted, len(jobs) - inserted)` with the final table state. -/
def upsert_jobs_bulk (db : List Job) (jobs : List Job) : Nat × Nat × List Job :=
  let r := upsertLoop db jobs
  (r.1, jobs.length - r.1, r.2)

/-- Pairwise-distinct `(source, external_id)` pairs within a batch. -/
def keysDistinct : List Job → Bool
  | [] => true
  | j :: rest =>
      !(rest.any (fun r => j.source == r.source && j.externalId == r.externalId)) &&
        keysDistinct rest

theorem hasKey_append (db1 db2 : List Job) (src eid : String) :
    hasKey (db1 ++ db2) src eid = (hasKey db1 src eid || hasKey db2 src eid) := by
  simp [hasKey, List.any_append]

theorem hasKey_of_mem {db : List Job} {j : Job} (h : j ∈ db) :
    hasKey db j.source j.externalId = true := by
  simp only [hasKey, List.any_eq_true]
  exact ⟨j, h, by simp⟩

theorem upsertLoop_all_new (jobs : List Job) :
    ∀ db : List Job,
      (∀ j ∈ jobs, hasKey db j.source j.externalId = false) →
      keysDistinct jobs = true →
      upsertLoop db jobs = (jobs.length, db ++ jobs) := by
  induction jobs with
  | nil => intro db _ _; simp [upsertLoop]
  | cons j rest ih =>
      intro db hnew hdist
      have hj : hasKey db j.source j.externalId = false :=
        hnew j (List.mem_cons_self j rest)
      have hd : keysDistinct (j :: rest) = true := hdist
      simp only [keysDistinct, Bool.and_eq_true, Bool.not_eq_true'] at hd
      have hrest : ∀ r ∈ rest, hasKey (db ++ [j]) r.source r.externalId = false := by
        intro r hr
        rw [hasKey_append]
        have h1 : hasKey db r.source r.externalId = false :=
          hnew r (List.mem_cons_of_mem j hr)
        have h2 : hasKey [j] r.source r.externalId = false := by
          simp only [hasKey, List.any_cons, List.any_nil, Bool.or_false]
          have := hd.1
          rw [List.any_eq_false] at this
          simpa using this r hr
        rw [h1, h2]
        rfl
      have := ih (db ++ [j]) hrest hd.2
      simp only [upsertLoop, upsert_job, hj, Bool.false_eq_true, if_false, this]
      simp [List.length_cons, Nat.add_comm]

theorem upsertLoop_all_dup (jobs : List Job) :
    ∀ db : List Job,
      (∀ j ∈ jobs, hasKey db j.source j.externalId = true) →
      upsertLoop db jobs = (0, db) := by
  induction jobs with
  | nil => intro db _; simp [upsertLoop]
  | cons j rest ih =>
      intro db hdup
      have hj := hdup j (List.mem_cons_self j rest)
      simp only [upsertLoop, upsert_job, hj, if_true]
      have := ih db (fun r hr => hdup r (List.mem_cons_of_mem j hr))
      simp [this]

/-- Claim C4: ingestion is idempotent on the composite key.  For a batch of
pairwise-distinct `(source, external_id)` pairs none of which are stored,
the first `upsert_jobs_bulk` run returns `(added = N, skipped = 0)` and
appends the batch; an identical second run returns `(added = 0,
skipped = N)` and leaves the table unchanged; and upserting any
already-seen key never modifies the stored table at all. -/
theorem c4_ingestion_idempotent (db : List Job) (jobs : List Job)
    (hnew : ∀ j ∈ jobs, hasKey db j.source j.externalId = false)
    (hdist : keysDistinct jobs = true) :
    upsert_jobs_bulk db jobs = (jobs.length, 0, db ++ jobs)
    ∧ upsert_jobs_bulk (db ++ jobs) jobs = (0, jobs.length, db ++ jobs)
    ∧ ∀ (db' : List Job) (jd : Job),
        hasKey db' jd.source jd.externalId = true →
        upsert_job db' jd = (false, db') := by
  refine ⟨?_, ?_, ?_⟩
  · rw [upsert_jobs_bulk, upsertLoop_all_new jobs db hnew hdist]
    simp
  · have hdup : ∀ j ∈ jobs, hasKey (db ++ jobs) j.source j.externalId = true := by
      intro j hj
      rw [hasKey_append, hasKey_of_mem hj]
      simp
    rw [upsert_jobs_bulk, upsertLoop_all_dup jobs (db ++ jobs) hdup]
    simp
  · intro db' jd h
    simp [upsert_job, h]

/-- Witness for C4 at a concrete two-job batch against an empty table. -/
theorem c4_witness :
    upsert_jobs_bulk [] [{source := "remotive", externalId := "1"},
        {source := "remotive", externalId := "2"}]
      = (2, 0, [{source := "remotive", externalId := "1"},
        {source := "remotive", externalId := "2"}]) :=
  (c4_ingestion_idempotent [] _ (by decide) (by decide)).1

/-! ### Expiry sweep (`expire_old_jobs`, crud.py 226-235) -/

/-- SQL `posted_at < cutoff`: false when `posted_at` is NULL. -/
def postedBefore (j : Job) (cutoff : Int) : Bool :=
  match j.postedAt with
  | some t => t < cutoff
  | none => false

/-- The per-row effect of the bulk
`UPDATE ... SET is_active = false WHERE posted_at < cutoff AND is_active`. -/
def expireStep (cutoff : Int) (j : Job) : Job :=
  if postedBefore j cutoff && j.isActive then { j with isActive := false } else j

/-- Embedding of `expire_old_jobs(db, days)` (crud.py 226-235): cutoff is now minus
`days` days; returns the updated table and the updated-row count. -/
def expire_old_jobs (now : Int) (days : Int) (db : List Job) : List Job × Nat :=
  let cutoff := now - days * 86400
  (db.map (expireStep cutoff),
   (db.filter (fun j => postedBefore j cutoff && j.isActive)).length)

theorem expireStep_postedAt (cutoff : Int) (j : Job) :
    (expireStep cutoff j).postedAt = j.postedAt := by
  unfold expireStep
  by_cases h : (postedBefore j cutoff && j.isActive) = true <;> simp [h]

theorem postedBefore_expireStep (cutoff : Int) (j : Job) :
    postedBefore (expireStep cutoff j) cutoff = postedBefore j cutoff := by
  unfold postedBefore
  rw [expireStep_postedAt]

theorem expireStep_idem (cutoff : Int) (j : Job) :
    expireStep cutoff (expireStep cutoff j) = expireStep cutoff j := by
  unfold expireStep
  by_cases h : (postedBefore j cutoff && j.isActive) = true
  · rw [if_pos h]
    have hp : postedBefore { j with isActive := false } cutoff = postedBefore j cutoff := rfl
    simp [hp]
  · rw [if_neg h, if_neg h]

/-- Claim C5: after the sweep with threshold 45 days, (a) every stored job
whose `posted_at` is strictly older than the cutoff is inactive; (b) the
sweep acts row-wise and leaves every job at or newer than the cutoff (and
every NULL-dated job) entirely unchanged; (c) running the sweep again on
the resulting state changes nothing and reports zero updated rows. -/
theorem c5_expiry_monotonic (now : Int) (db : List Job) :
    (∀ j ∈ (expire_old_jobs now 45 db).1,
        postedBefore j (now - 45 * 86400) = true → j.isActive = false)
    ∧ ((expire_old_jobs now 45 db).1 = db.map (expireStep (now - 45 * 86400))
       ∧ ∀ j : Job, postedBefore j (now - 45 * 86400) = false →
           expireStep (now - 45 * 86400) j = j)
    ∧ expire_old_jobs now 45 ((expire_old_jobs now 45 db).1)
        = ((expire_old_jobs now 45 db).1, 0) := by
  refine ⟨?_, ⟨rfl, ?_⟩, ?_⟩
  · intro j hj hold
    simp only [expire_old_jobs, List.mem_map] at hj
    obtain ⟨j0, _, rfl⟩ := hj
    rw [postedBefore_expireStep] at hold
    unfold expireStep
    by_cases ha : j0.isActive = true
    · rw [hold, ha]
      simp
    · have ha' : j0.isActive = false := by
        cases hx : j0.isActive
        · rfl
        · exact absurd hx ha
      rw [hold, ha']
      simp [ha']
  · intro j hp
    unfold expireStep
    rw [hp]
    simp
  · unfold expire_old_jobs
    refine Prod.ext ?_ ?_
    · simp only [List.map_map]
      apply List.map_congr_left
      intro j _
      exact expireStep_idem _ j
    · simp only
      rw [List.length_eq_zero]
      rw [List.filter_eq_nil_iff]
      intro j hj
      simp only [List.mem_map] at hj
      obtain ⟨j0, _, rfl⟩ := hj
      rw [Bool.and_eq_true, postedBefore_expireStep]
      rintro ⟨hold, hact⟩
      unfold expireStep at hact
      by_cases hb : (postedBefore j0 (now - 45 * 86400) && j0.isActive) = true
      · rw [if_pos hb] at hact
        simp at hact
      · rw [if_neg hb] at hact
        exact hb (by rw [Bool.and_eq_true]; exact ⟨hold, hact⟩)

/-- Witness for C5: a concrete old active job is inactive after the sweep. -/
theorem c5_witness :
    ({ source := "adzuna", externalId := "7", postedAt := some 0,
       isActive := false : Job }).isActive = false :=
  (c5_expiry_monotonic 4000000
      [{ source := "adzuna", externalId := "7", postedAt := some 0 }]).1
    { source := "adzuna", externalId := "7", postedAt := some 0, isActive := false }
    (by decide) (by decide)

/-! ### Three-phase search widening (`get_jobs`, crud.py 82-128)

The Postgres text primitives are external collaborators; they are modelled
boolean-wise over the job's lexeme list: the "all terms required" query
(`plainto_tsquery`) matches when every token appears, the OR query built by
`websearch_to_tsquery` over `" OR ".join(domain_words)` matches when any
domain word appears.  Query tokenization is modelled as
lowercase-whitespace-split, which is also exactly `_domain_words`'s own
tokenization (`text.strip().lower().split()`). -/

/-- The `_GENERIC` stoplist (crud.py 84-90). -/
def GENERIC : List String :=
  ["developer", "engineer", "programmer", "manager", "analyst", "architect",
   "specialist", "consultant", "coordinator", "administrator", "admin",
   "senior", "junior", "lead", "staff", "principal", "associate", "intern",
   "trainee", "assistant", "support", "officer", "director", "head", "chief",
   "member", "team", "software", "technical", "technology", "tech", "full",
   "stack"]

/-- Python `str.split()` (split on whitespace runs, no empty words);
`cur` accumulates the current word reversed. -/
def splitWsAux (cur : List Char) : List Char → List (List Char)
  | [] => if cur.isEmpty then [] else [cur.reverse]
  | c :: cs =>
      if isSpaceChar c then
        if cur.isEmpty then splitWsAux [] cs
        else cur.reverse :: splitWsAux [] cs
      else splitWsAux (c :: cur) cs

def pyWords (s : String) : List String := (splitWsAux [] s.data).map String.mk

def lowerString (s : String) : String := String.mk (lowerL s.data)

/-- Embedding of `_domain_words` (crud.py 92-95): the non-generic words of the query
that are longer than two characters, after lowercasing. -/
def domainWords (q : String) : List String :=
  (pyWords (lowerString q)).filter (fun wd => 2 < wd.length && !(decide (wd ∈ GENERIC)))

/-- The tokens of `plainto_tsquery("english", q)` in this model. -/
def qTokens (q : String) : List String := pyWords (lowerString q)

/-- All-terms-required match (`search_vector @@ plainto_tsquery(...)`). -/
def andMatch (terms : List String) (j : Job) : Bool :=
  terms.all (fun t => j.searchVec.contains t)

/-- Any-term match (`search_vector @@ websearch_to_tsquery('a OR b ...')`). -/
def orMatch (terms : List String) (j : Job) : Bool :=
  terms.any (fun t => j.searchVec.contains t)

/-- The count probes of crud.py 99-103 and 114-118: active jobs matching a
predicate. -/
def countMatching (corpus : List Job) (p : Job → Bool) : Nat :=
  (corpus.filter (fun j => j.isActive && p j)).length

/-- Which text query `get_jobs` ends up filtering with. -/
inductive TextFilter where
  | strictAnd : List String → TextFilter
  | domainAnd : List String → TextFilter
  | domainOr : List String → TextFilter
deriving DecidableEq

/-- The three-phase search-text resolution of `get_jobs` (crud.py 97-128),
transcribed control-flow for control-flow: Phase 1 strict AND kept when its
count probe is positive; else Phase 2 domain AND when domain words remain
and its count probe is positive; else Phase 3 domain OR unconditionally;
strict AND again when no domain words remain. -/
def resolveTextFilter (corpus : List Job) (q : String) : TextFilter :=
  let strictCount := countMatching corpus (andMatch (qTokens q))
  if 0 < strictCount then .strictAnd (qTokens q)
  else
    let dw := domainWords q
    if !dw.isEmpty then
      let domainCount := countMatching corpus (andMatch dw)
      if 0 < domainCount then .domainAnd dw else .domainOr dw
    else .strictAnd (qTokens q)

/-- The widening order as the specification words it: four mutually
exclusive guards read top to bottom. -/
def resolveTextFilterSpec (corpus : List Job) (q : String) : TextFilter :=
  if 0 < countMatching corpus (andMatch (qTokens q)) then
    .strictAnd (qTokens q)
  else if !(domainWords q).isEmpty
      && 0 < countMatching corpus (andMatch (domainWords q)) then
    .domainAnd (domainWords q)
  else if !(domainWords q).isEmpty then
    .domainOr (domainWords q)
  else
    .strictAnd (qTokens q)

/-- Claim C3: for every non-empty search text, `get_jobs` resolves the text
filter by exactly the three-phase widening order the specification states:
strict all-terms AND when its count probe is positive; else the
all-domain-terms AND when domain words remain and its probe is positive;
else the any-domain-term OR unconditionally; and the original all-terms AND
(even at zero matches) when no domain words remain. -/
theorem c3_three_phase_widening (corpus : List Job) (q : String)
    (_hq : q ≠ "") :
    resolveTextFilter corpus q = resolveTextFilterSpec corpus q := by
  unfold resolveTextFilter resolveTextFilterSpec
  by_cases h1 : 0 < countMatching corpus (andMatch (qTokens q))
  · rw [if_pos h1, if_pos h1]
  · rw [if_neg h1, if_neg h1]
    by_cases h2 : (domainWords q).isEmpty
    · simp [h2]
    · have h2' : (!(domainWords q).isEmpty) = true := by
        simp [h2]
      by_cases h3 : 0 < countMatching corpus (andMatch (domainWords q))
      · simp [h2', h3]
      · simp [h2', h3]

/-- A one-job demo corpus for the search witnesses. -/
def demoCorpus : List Job :=
  [{ source := "remotive", externalId := "1",
     searchVec := ["backend", "python"] }]

/-- Witness for C3 at a concrete corpus and query. -/
theorem c3_witness :
    resolveTextFilter demoCorpus "backend python"
      = resolveTextFilterSpec demoCorpus "backend python" :=
  c3_three_phase_widening demoCorpus "backend python" (by decide)

/-- Claim C10 (implicit): `_domain_words` also drops every word of length
two or less, so a query whose non-generic terms are all short tokens has no
domain words at all, and the text filter falls back to the Phase 1
all-terms AND query — exactly as if the whole query had been generic. -/
theorem c10_short_tokens_no_domain_words (corpus : List Job) (q : String)
    (h : ∀ wd ∈ pyWords (lowerString q), wd.length ≤ 2 ∨ wd ∈ GENERIC) :
    domainWords q = [] ∧ resolveTextFilter corpus q = .strictAnd (qTokens q) := by
  have hdw : domainWords q = [] := by
    rw [domainWords, List.filter_eq_nil_iff]
    intro wd hwd
    simp only [Bool.and_eq_true, Bool.not_eq_true', decide_eq_true_eq,
      decide_eq_false_iff_not]
    rcases h wd hwd with hshort | hgen
    · rintro ⟨hlt, _⟩
      omega
    · rintro ⟨_, hnot⟩
      exact hnot hgen
  refine ⟨hdw, ?_⟩
  unfold resolveTextFilter
  rw [hdw]
  by_cases h1 : 0 < countMatching corpus (andMatch (qTokens q))
  · rw [if_pos h1]
  · rw [if_neg h1]
    simp

/-- Witness for C10 at the query `"go ai c#"` (only short tokens). -/
theorem c10_witness :
    domainWords "go ai c#" = []
    ∧ resolveTextFilter [] "go ai c#" = .strictAnd (qTokens "go ai c#") :=
  c10_short_tokens_no_domain_words [] "go ai c#" (by decide)

/-! ### Filters, sorting and pagination (`get_jobs` crud.py 60-166,
`list_jobs` main.py 92-129)

Python truthiness guards (`if category:`, `if salary_min:`) skip a filter
for `None` and for empty/zero values; SQL comparisons against NULL columns
are false. -/

structure QueryParams where
  q : Option String := none
  category : Option String := none
  state : Option String := none
  workType : Option String := none
  experience : Option String := none
  salaryMin : Option Int := none
  postedWithin : Option String := none
  source : Option String := none
  page : Nat := 1
  perPage : Nat := 20
  sort : String := "posted_at"

/-- Python truthiness of an optional string. -/
def strTruthy : Option String → Bool
  | some s => !s.isEmpty
  | none => false

/-- Python truthiness of an optional integer. -/
def intTruthy : Option Int → Bool
  | some v => v != 0
  | none => false

/-- SQL `column >= m` with NULL semantics. -/
def optGe (x : Option Int) (m : Int) : Bool :=
  match x with
  | some v => m ≤ v
  | none => false

/-- Embedding of `days_map.get(posted_within, 30)` (crud.py 148-149). -/
def daysFor (s : String) : Int :=
  if s = "1d" then 1 else if s = "3d" then 3 else if s = "7d" then 7
  else if s = "14d" then 14 else if s = "30d" then 30 else 30

/-- Apply the resolved text filter to a job. -/
def filterMatch : TextFilter → Job → Bool
  | .strictAnd ts, j => andMatch ts j
  | .domainAnd ts, j => andMatch ts j
  | .domainOr ts, j => orMatch ts j

/-- Guard `if q:` of crud.py 82: the text filter is resolved only for a
truthy (non-empty) search string. -/
def textFilterFor (corpus : List Job) (p : QueryParams) : Option TextFilter :=
  match p.q with
  | some qs => if qs.isEmpty then none else some (resolveTextFilter corpus qs)
  | none => none

/-- The conjunction of `is_active`, the text filter and the structured
filters of crud.py 78 and 130-151. -/
def passesFilters (p : QueryParams) (now : Int) (tf : Option TextFilter)
    (j : Job) : Bool :=
  j.isActive
  && (match tf with | some f => filterMatch f j | none => true)
  && (if strTruthy p.category then j.category == p.category else true)
  && (if strTruthy p.state then j.locationState == p.state else true)
  && (if strTruthy p.workType then j.workType == p.workType else true)
  && (if strTruthy p.experience then j.experienceLevel == p.experience else true)
  && (if intTruthy p.salaryMin then
        (optGe j.salaryMin (p.salaryMin.getD 0) || optGe j.salaryMax (p.salaryMin.getD 0))
      else true)
  && (if strTruthy p.source then some j.source == p.source else true)
  && (if strTruthy p.postedWithin then
        optGe j.postedAt (now - daysFor (p.postedWithin.getD "") * 86400)
      else true)

/-- The filtered-but-unpaginated set of `get_jobs`. -/
def filteredJobs (p : QueryParams) (now : Int) (corpus : List Job) : List Job :=
  corpus.filter (passesFilters p now (textFilterFor corpus p))

/-- The sort key of crud.py 156-160: `salary_max` or `posted_at`. -/
def sortKey (sort : String) (j : Job) : Option Int :=
  if sort = "salary_max" then j.salaryMax else j.postedAt

/-- Descending order with NULL keys last (`desc(...).nulls_last()`). -/
def descNullsLast (a b : Option Int) : Bool :=
  match a, b with
  | some x, some y => y ≤ x
  | some _, none => true
  | none, some _ => false
  | none, none => true

/-- The engine's ordering of the filtered set (a permutation of it). -/
def sortedJobs (sort : String) (l : List Job) : List Job :=
  l.insertionSort (fun a b => descNullsLast (sortKey sort a) (sortKey sort b) = true)

/-- Embedding of `get_jobs` (crud.py 60-166): count the filtered set, sort it, slice the
1-based page of `per_page` rows; returns `(jobs, total)`. -/
def get_jobs (corpus : List Job) (p : QueryParams) (now : Int) :
    List Job × Nat :=
  let filtered := filteredJobs p now corpus
  let total := filtered.length
  let sorted := sortedJobs p.sort filtered
  ((sorted.drop ((p.page - 1) * p.perPage)).take p.perPage, total)

/-- Embedding of `math.ceil(total / per_page) if total > 0 else 0` (main.py 128). -/
def total_pages (total perPage : Nat) : Nat :=
  if 0 < total then (total + perPage - 1) / perPage else 0

/-- The predicate `passesFilters` never reads the requested page number. -/
theorem passesFilters_page (p : QueryParams) (n : Nat) (now : Int)
    (tf : Option TextFilter) :
    passesFilters { p with page := n } now tf = passesFilters p now tf := rfl

theorem range_flatMap_take {α : Type} (L : List α) (k : Nat) (m : Nat) :
    (List.range m).flatMap (fun i => (L.drop (i * k)).take k) = L.take (m * k) := by
  induction m with
  | zero => simp
  | succ n ih =>
      rw [List.range_succ, List.flatMap_append, ih]
      have h1 : ([n].flatMap fun i => (L.drop (i * k)).take k)
          = (L.drop (n * k)).take k := by simp
      rw [h1, ← List.take_add, Nat.succ_mul]

theorem le_ceilDiv_mul (n k : Nat) (hk : 0 < k) (hn : 0 < n) :
    n ≤ (n + k - 1) / k * k := by
  have he : n + k - 1 = (n - 1) + k := by omega
  rw [he, Nat.add_div_right _ hk]
  have h4 := Nat.div_add_mod (n - 1) k
  have h3 := Nat.mod_lt (n - 1) hk
  calc n ≤ k * ((n - 1) / k) + k := by omega
  _ = (n - 1) / k * k + k := by rw [Nat.mul_comm]
  _ = ((n - 1) / k + 1) * k := by rw [Nat.succ_mul]

theorem le_total_pages_mul (n k : Nat) (hk : 0 < k) :
    n ≤ total_pages n k * k := by
  unfold total_pages
  by_cases hn : 0 < n
  · rw [if_pos hn]
    exact le_ceilDiv_mul n k hk hn
  · rw [if_neg hn]
    simp
    omega

/-- Concatenating all `total_pages` consecutive `k`-slices of a list
reproduces the list. -/
theorem pages_concat {α : Type} (L : List α) (k : Nat) (hk : 0 < k) :
    (List.range (total_pages L.length k)).flatMap
        (fun i => (L.drop (i * k)).take k) = L := by
  rw [range_flatMap_take]
  exact List.take_of_length_le (le_total_pages_mul L.length k hk)

/-- Claim C8: pagination is correct for every filter combination, 1-based
page number and per-page value — the returned total is the length of the
filtered-but-unpaginated set (independent of the requested page), the
reported `total_pages` equals `ceil(total / per_page)`, and concatenating
page 1, page 2, ... in order reproduces the whole filtered, sorted result
set with no duplicates or omissions. -/
theorem c8_pagination_correct (corpus : List Job) (p : QueryParams)
    (now : Int) (_hpage : 1 ≤ p.page) (hpp : 1 ≤ p.perPage) :
    (get_jobs corpus p now).2 = (filteredJobs p now corpus).length
    ∧ total_pages (get_jobs corpus p now).2 p.perPage
        = ((get_jobs corpus p now).2 + p.perPage - 1) / p.perPage
    ∧ (List.range (total_pages (get_jobs corpus p now).2 p.perPage)).flatMap
          (fun i => (get_jobs corpus { p with page := i + 1 } now).1)
        = sortedJobs p.sort (filteredJobs p now corpus) := by
  refine ⟨rfl, ?_, ?_⟩
  · unfold total_pages
    by_cases hn : 0 < (get_jobs corpus p now).2
    · rw [if_pos hn]
    · rw [if_neg hn]
      have h0 : (get_jobs corpus p now).2 = 0 := by omega
      rw [h0]
      have : (0 + p.perPage - 1) / p.perPage = 0 :=
        Nat.div_eq_of_lt (by omega)
      omega
  · have hslice : ∀ i : Nat,
        (get_jobs corpus { p with page := i + 1 } now).1
          = ((sortedJobs p.sort (filteredJobs p now corpus)).drop (i * p.perPage)).take
              p.perPage := by
      intro i
      unfold get_jobs
      simp [filteredJobs, textFilterFor, sortedJobs, passesFilters_page]
    have htot : (get_jobs corpus p now).2
        = (sortedJobs p.sort (filteredJobs p now corpus)).length := by
      unfold get_jobs
      simp [sortedJobs, List.length_insertionSort]
    calc (List.range (total_pages (get_jobs corpus p now).2 p.perPage)).flatMap
          (fun i => (get_jobs corpus { p with page := i + 1 } now).1)
        = (List.range (total_pages
            (sortedJobs p.sort (filteredJobs p now corpus)).length p.perPage)).flatMap
            (fun i => ((sortedJobs p.sort (filteredJobs p now corpus)).drop
              (i * p.perPage)).take p.perPage) := by
          rw [htot]
          exact List.flatMap_congr (fun i _ => hslice i)
    _ = sortedJobs p.sort (filteredJobs p now corpus) :=
          pages_concat _ p.perPage hpp

/-- Witness for C8 at a concrete corpus and the default query parameters. -/
theorem c8_witness :
    (get_jobs demoCorpus {} 0).2 = (filteredJobs {} 0 demoCorpus).length :=
  (c8_pagination_correct demoCorpus {} 0 (by decide) (by decide)).1

/-! ### Orchestrator error isolation (`run_all_scrapers`, scheduler.py 31-122)

Each scraper's try-block runs `fetch_jobs()` followed by
`upsert_jobs_bulk`; either may raise.  An adapter is therefore modelled as
a name plus an action on the table that returns either the
`(inserted, skipped)` counts or an error, together with the table state it
leaves behind (a raise mid-bulk keeps the rows committed so far, as each
`upsert_job` commits individually). -/

structure ScrapeResult where
  source : String
  jobsAdded : Nat
  jobsSkipped : Nat
  errors : Nat
deriving DecidableEq

structure Adapter where
  sourceName : String
  act : List Job → (Except String (Nat × Nat)) × List Job

/-- One iteration of the scraper loop (scheduler.py 60-86): the try-block
outcome becomes a result row; an exception is caught and recorded as
`jobs_added = 0, jobs_skipped = 0, errors = 1`. -/
def runStep (db : List Job) (a : Adapter) : ScrapeResult × List Job :=
  match a.act db with
  | (.ok r, db') =>
      ({ source := a.sourceName, jobsAdded := r.1, jobsSkipped := r.2,
         errors := 0 }, db')
  | (.error _, db') =>
      ({ source := a.sourceName, jobsAdded := 0, jobsSkipped := 0,
         errors := 1 }, db')

/-- The sequential scraper loop of `run_all_scrapers` (scheduler.py 55-91):
the accumulated `results` list and the final table state. -/
def run_all_scrapers : List Adapter → List Job → List ScrapeResult × List Job
  | [], db => ([], db)
  | a :: rest, db =>
      let r := runStep db a
      let t := run_all_scrapers rest r.2
      (r.1 :: t.1, t.2)

/-- A well-behaved adapter built from a fetch outcome: on success, the
fetched jobs are bulk-upserted; a fetch failure leaves the table alone. -/
def mkFetchAdapter (name : String) (fetch : Except String (List Job)) : Adapter :=
  { sourceName := name,
    act := fun db =>
      match fetch with
      | .ok jobs =>
          let r := upsert_jobs_bulk db jobs
          (.ok (r.1, r.2.1), r.2.2)
      | .error e => (.error e, db) }

theorem run_all_scrapers_append (xs ys : List Adapter) (db : List Job) :
    run_all_scrapers (xs ++ ys) db
      = ((run_all_scrapers xs db).1 ++ (run_all_scrapers ys (run_all_scrapers xs db).2).1,
         (run_all_scrapers ys (run_all_scrapers xs db).2).2) := by
  induction xs generalizing db with
  | nil => simp [run_all_scrapers]
  | cons a rest ih =>
      simp only [List.cons_append, run_all_scrapers, List.append_eq, ih]

theorem run_all_scrapers_length (adapters : List Adapter) (db : List Job) :
    (run_all_scrapers adapters db).1.length = adapters.length := by
  induction adapters generalizing db with
  | nil => rfl
  | cons a rest ih => simp [run_all_scrapers, ih]

/-- Claim C9: an adapter failure never aborts the orchestrator.  If the
adapter `a` raises on the table state it receives (after the prefix `pre`),
the run still produces exactly one status row per adapter; `a`'s row
records `jobs_added = 0, jobs_skipped = 0, errors = 1`; and every adapter
of `post` still runs, from the state the failing adapter left behind. -/
theorem c9_adapter_failure_isolated (pre post : List Adapter) (a : Adapter)
    (db db1 : List Job) (e : String)
    (hfail : a.act (run_all_scrapers pre db).2 = (.error e, db1)) :
    run_all_scrapers (pre ++ a :: post) db
      = ((run_all_scrapers pre db).1
          ++ ({ source := a.sourceName, jobsAdded := 0, jobsSkipped := 0,
                errors := 1 } : ScrapeResult)
            :: (run_all_scrapers post db1).1,
         (run_all_scrapers post db1).2)
    ∧ (run_all_scrapers (pre ++ a :: post) db).1.length
        = pre.length + 1 + post.length := by
  have hstep : runStep (run_all_scrapers pre db).2 a
      = ({ source := a.sourceName, jobsAdded := 0, jobsSkipped := 0,
           errors := 1 }, db1) := by
    unfold runStep
    rw [hfail]
  have hmain : run_all_scrapers (pre ++ a :: post) db
      = ((run_all_scrapers pre db).1
          ++ ({ source := a.sourceName, jobsAdded := 0, jobsSkipped := 0,
                errors := 1 } : ScrapeResult)
            :: (run_all_scrapers post db1).1,
         (run_all_scrapers post db1).2) := by
    rw [run_all_scrapers_append]
    have h2 : run_all_scrapers (a :: post) (run_all_scrapers pre db).2
        = (({ source := a.sourceName, jobsAdded := 0, jobsSkipped := 0,
              errors := 1 } : ScrapeResult) :: (run_all_scrapers post db1).1,
           (run_all_scrapers post db1).2) := by
      show ((runStep (run_all_scrapers pre db).2 a).1
          :: (run_all_scrapers post (runStep (run_all_scrapers pre db).2 a).2).1,
          (run_all_scrapers post (runStep (run_all_scrapers pre db).2 a).2).2) = _
      rw [hstep]
    rw [h2]
  refine ⟨hmain, ?_⟩
  rw [hmain]
  simp [run_all_scrapers_length]
  omega

/-- A concrete always-failing adapter and a concrete succeeding one. -/
def failAdapter : Adapter :=
  { sourceName := "usajobs", act := fun db => (.error "boom", db) }

def okAdapter : Adapter :=
  mkFetchAdapter "remotive" (.ok [{ source := "remotive", externalId := "9" }])

/-- Witness for C9: the failing first adapter is recorded as an error row
and the second adapter still runs. -/
theorem c9_witness :
    run_all_scrapers ([] ++ failAdapter :: [okAdapter]) []
      = ((run_all_scrapers [] ([] : List Job)).1
          ++ ({ source := "usajobs", jobsAdded := 0, jobsSkipped := 0,
                errors := 1 } : ScrapeResult)
            :: (run_all_scrapers [okAdapter] []).1,
         (run_all_scrapers [okAdapter] []).2) :=
  (c9_adapter_failure_isolated [] [okAdapter] failAdapter [] [] "boom" rfl).1

end JobPortal
